import Mathlib

/-!
Verification of the image-compression backend (src/server.js).

The pure core of the server is embedded here:

* `computePSNR`   — src/server.js lines 42-66 (PSNR over raw RGBA buffers);
* `qualityToPercent` / `jsRound` — lines 69-72 (quality normalizer);
* `inferLossType` — lines 220-225 (loss-type classifier);
* `resolveVariants` / `defaultPlan` — lines 110-136 (variant plan resolver);
* `processPlan`   — lines 141-199, the pure per-variant projection of the
  orchestrator loop (format defaulting/lowercasing, quality normalization,
  label and loss-type defaulting, and the unknown-format skip).

Buffers are modelled as `List ℕ` of byte values; JS numbers arising in the
accumulation are exact integers, modelled as `ℤ`/`ℚ`, with JS `NaN`
(from out-of-bounds `undefined` reads and from the 0/0 division on empty
buffers) represented explicitly by dedicated constructors / `Option`.
-/

namespace ImageCompressor

/-- Outcome of `computePSNR` (src/server.js lines 42-66).  JS returns
`null` on mismatched lengths, `Infinity` when the mean squared error is
exactly zero, `NaN` when the arithmetic involves `undefined` reads or the
0/0 division on empty input, and otherwise a finite decibel number.  The
finite case `val m` carries the exact mean squared error `m`; the decibel
number the program returns for it is `psnrDb m` (line 64). -/
inductive PSNRResult where
  | null
  | nan
  | inf
  | val (mse : ℚ)
  deriving DecidableEq

/-- One iteration of the loop at src/server.js lines 49-56: the squared
differences of the R, G, B bytes at offset `i` (`i + 3`, alpha, is ignored).
`none` models the JS `NaN` produced when an index is out of bounds
(a `Buffer` read past the end yields `undefined`). -/
def pixelTerm (b1 b2 : List ℕ) (i : ℕ) : Option ℤ :=
  match b1[i]?, b2[i]?, b1[i + 1]?, b2[i + 1]?, b1[i + 2]?, b2[i + 2]? with
  | some r1, some r2, some g1, some g2, some c1, some c2 =>
      some (((r1 : ℤ) - r2) * ((r1 : ℤ) - r2)
        + ((g1 : ℤ) - g2) * ((g1 : ℤ) - g2)
        + ((c1 : ℤ) - c2) * ((c1 : ℤ) - c2))
  | _, _, _, _, _, _ => none

/-- The accumulation loop `for (let i = 0; i < buf1.length; i += 4)` of
src/server.js lines 49-56, starting from offset `i`.  `none` models a `NaN`
accumulator (NaN is absorbing for JS addition). -/
def sumLoop (b1 b2 : List ℕ) (i : ℕ) : Option ℤ :=
  if _h : i < b1.length then
    match pixelTerm b1 b2 i, sumLoop b1 b2 (i + 4) with
    | some t, some s => some (t + s)
    | _, _ => none
  else some 0
termination_by b1.length - i
decreasing_by omega

/-- `computePSNR` from src/server.js lines 42-66.  On equal lengths the JS
code computes `pixels = buf1.length / 4`, `mse = sum / (pixels * 3)`; when
`buf1.length = 0` this is `0 / 0 = NaN`, `NaN === 0` is false, and
`10 * log10(65025 / NaN)` is again `NaN`, hence the explicit `nan` branch.
Otherwise `mse === 0` yields `Infinity`, and any other value yields the
finite result whose decibel value is `psnrDb mse` (line 64). -/
def computePSNR (b1 b2 : List ℕ) : PSNRResult :=
  if b1.length ≠ b2.length then PSNRResult.null
  else
    match sumLoop b1 b2 0 with
    | none => PSNRResult.nan
    | some s =>
        if b1.length = 0 then PSNRResult.nan
        else
          let pixels : ℚ := (b1.length : ℚ) / 4
          let mse : ℚ := (s : ℚ) / (pixels * 3)
          if mse = 0 then PSNRResult.inf else PSNRResult.val mse

/-- The decibel value `10 * Math.log10((MAX_I * MAX_I) / mse)` returned at
src/server.js lines 63-64 for a finite mean squared error `mse`
(`MAX_I = 255`). -/
noncomputable def psnrDb (mse : ℚ) : ℝ :=
  10 * Real.logb 10 ((255 * 255 : ℝ) / (mse : ℝ))

/-- Byte at index `n` of a buffer, as an integer (0 when out of range;
only used at indices proved in range). -/
def byteAt (l : List ℕ) (n : ℕ) : ℤ := (l.getD n 0 : ℤ)

/-- Squared R/G/B differences contributed by pixel `j` (bytes
`4*j`, `4*j+1`, `4*j+2`; the alpha byte `4*j+3` is excluded). -/
def pixelSq (b1 b2 : List ℕ) (j : ℕ) : ℤ :=
  (byteAt b1 (4 * j) - byteAt b2 (4 * j)) ^ 2
    + (byteAt b1 (4 * j + 1) - byteAt b2 (4 * j + 1)) ^ 2
    + (byteAt b1 (4 * j + 2) - byteAt b2 (4 * j + 2)) ^ 2

/-- Sum of squared R/G/B differences over `k` pixels. -/
def sumSqRGB (b1 b2 : List ℕ) (k : ℕ) : ℤ :=
  ∑ j ∈ Finset.range k, pixelSq b1 b2 j

/-- JS `Math.round`: round half toward positive infinity. -/
def jsRound (q : ℚ) : ℤ := ⌊q + 1 / 2⌋

/-- `qualityToPercent` from src/server.js lines 69-72. -/
def qualityToPercent (q : ℚ) : ℤ :=
  if q ≤ 1 then jsRound (q * 100) else jsRound q

/-- JS `String.prototype.toLowerCase`, restricted to the ASCII case
mapping (the only part the server's comparisons can observe: every string
it compares against is a plain ASCII format name). -/
def asciiLower (s : String) : String := String.mk (s.data.map Char.toLower)

/-- JS `String.prototype.toUpperCase`, ASCII case mapping (used only to
synthesize display labels). -/
def asciiUpper (s : String) : String := String.mk (s.data.map Char.toUpper)

/-- `inferLossType` from src/server.js lines 220-225. -/
def inferLossType (format : String) : String :=
  if asciiLower format = "png" then "lossless" else "lossy"

/-- One entry of the caller-supplied `config` array (src/server.js
lines 141-146): every field may be missing, and the loop supplies
defaults.  A non-object array element behaves like an entry with all
fields missing (property reads yield `undefined`). -/
structure VariantCfg where
  format : Option String
  quality : Option ℚ
  label : Option String
  lossType : Option String
  deriving DecidableEq

/-- The shape of a successfully parsed `config` JSON value, as far as the
resolver inspects it: `Array.isArray(variantsConfig)` distinguishes an
array of entries from any other JSON value (src/server.js line 122). -/
inductive ConfigJson where
  | array (xs : List VariantCfg)
  | nonArray
  deriving DecidableEq

/-- Outcome of the `config` field handling at src/server.js lines 110-117:
the field is absent (or falsy), `JSON.parse` threw (caught, warning
logged, `variantsConfig` stays `null`), or parsing produced a value. -/
inductive ConfigParse where
  | absent
  | malformed
  | parsed (v : ConfigJson)
  deriving DecidableEq

/-- The built-in default plan of src/server.js lines 123-135. -/
def defaultPlan : List VariantCfg :=
  [ { format := some "jpeg", quality := some 0.2,
      label := some "JPEG (якість 0.2)", lossType := some "lossy" },
    { format := some "jpeg", quality := some 0.5,
      label := some "JPEG (якість 0.5)", lossType := some "lossy" },
    { format := some "jpeg", quality := some 0.8,
      label := some "JPEG (якість 0.8)", lossType := some "lossy" },
    { format := some "webp", quality := some 0.5,
      label := some "WebP (якість 0.5)", lossType := some "lossy" },
    { format := some "webp", quality := some 0.8,
      label := some "WebP (якість 0.8)", lossType := some "lossy" },
    { format := some "avif", quality := some 0.5,
      label := some "AVIF (якість 0.5)", lossType := some "lossy" },
    { format := some "avif", quality := some 0.8,
      label := some "AVIF (якість 0.8)", lossType := some "lossy" },
    { format := some "png", quality := some 1.0,
      label := some "PNG (без втрат)", lossType := some "lossless" } ]

/-- The variant plan resolution of src/server.js lines 110-136:
`variantsConfig` is `null` unless the `config` field parsed, and the
default plan is substituted unless the parsed value is a non-empty array.
A parse failure is caught locally (line 114), so malformed input reaches
this total function as `malformed` and never escapes as an error. -/
def resolveVariants (c : ConfigParse) : List VariantCfg :=
  let variantsConfig : Option ConfigJson :=
    match c with
    | ConfigParse.absent => none
    | ConfigParse.malformed => none
    | ConfigParse.parsed v => some v
  match variantsConfig with
  | some (ConfigJson.array xs) => if xs.length = 0 then defaultPlan else xs
  | _ => defaultPlan

/-- JS `v || dflt` for an optional string: `undefined` and the empty
string are falsy, any other string is kept. -/
def jsOrString (v : Option String) (dflt : String) : String :=
  match v with
  | some s => if s = "" then dflt else s
  | none => dflt

/-- `(cfg.format || 'jpeg').toLowerCase()` — src/server.js line 142. -/
def effFormat (cfg : VariantCfg) : String :=
  asciiLower (jsOrString cfg.format "jpeg")

/-- The quality displayed in the synthesized label
(`cfg.quality || 0.8`, src/server.js line 143): `undefined` and `0` are
falsy and replaced by `0.8`. -/
def labelQuality (q : Option ℚ) : ℚ :=
  match q with
  | some x => if x = 0 then 0.8 else x
  | none => 0.8

/-- The label synthesized at src/server.js line 143 when `cfg.label` is
falsy.  JS number-to-string formatting is approximated by the `ℚ`
rendering; no verified property depends on the label text. -/
def defaultLabel (format : String) (cfg : VariantCfg) : String :=
  asciiUpper format ++ " (quality=" ++ toString (labelQuality cfg.quality) ++ ")"

/-- `cfg.quality != null ? cfg.quality : 0.8` — src/server.js line 144
(note `!= null` keeps `0`, unlike the label default). -/
def effQuality (cfg : VariantCfg) : ℚ := cfg.quality.getD 0.8

/-- Whether the format dispatch chain of src/server.js lines 155-166
recognizes `f`; any other format hits `continue`. -/
def supportedFormat (f : String) : Bool :=
  f = "jpeg" || f = "png" || f = "webp" || f = "avif"

/-- The pure fields of one Variant Result assembled at src/server.js
lines 188-198.  File name, URL, byte size, compression ratio and PSNR
come from the external codec and file system and are outside this pure
projection; which entries produce a result, and in which order, is
decided entirely by the fields below. -/
structure VariantRecord where
  label : String
  format : String
  quality : ℤ
  lossType : String
  deriving DecidableEq

/-- The per-entry pure computation of src/server.js lines 142-147 and
188-198: defaulted lowercased format, synthesized label, normalized
quality percent, and loss type (explicit or inferred). -/
def mkRecord (cfg : VariantCfg) : VariantRecord :=
  { label := jsOrString cfg.label (defaultLabel (effFormat cfg) cfg)
    format := effFormat cfg
    quality := qualityToPercent (effQuality cfg)
    lossType := jsOrString cfg.lossType (inferLossType (effFormat cfg)) }

/-- The `for (const cfg of variantsConfig)` loop of src/server.js
lines 141-199, projected to its pure outcome: an unrecognized format hits
`continue` (line 165) and contributes nothing, every other entry appends
exactly one record (line 188), in plan order. -/
def processPlan : List VariantCfg → List VariantRecord
  | [] => []
  | cfg :: rest =>
      if supportedFormat (effFormat cfg) then mkRecord cfg :: processPlan rest
      else processPlan rest

/-- Two buffers of equal length whose bytes agree at every index that is
not an alpha byte (index `≡ 3 mod 4`); they may differ arbitrarily on
alpha bytes. -/
def agreeRGB (a b : List ℕ) : Prop :=
  a.length = b.length ∧
    ∀ i, i < a.length → i % 4 ≠ 3 → a.getD i 0 = b.getD i 0

instance (a b : List ℕ) : Decidable (agreeRGB a b) :=
  inferInstanceAs (Decidable (_ ∧ _))

/-- A plan entry with a recognized format (used as a concrete input). -/
def cfgJpegHalf : VariantCfg :=
  { format := some "jpeg", quality := some 0.5, label := none, lossType := none }

/-- A plan entry with an unrecognized format (used as a concrete input). -/
def cfgBmpHalf : VariantCfg :=
  { format := some "bmp", quality := some 0.5, label := none, lossType := none }

/-! ## Helper lemmas -/

lemma getElem?_eq_some_getD (l : List ℕ) (n : ℕ) (h : n < l.length) :
    l[n]? = some (l.getD n 0) := by
  rw [List.getD_eq_getElem?_getD, List.getElem?_eq_getElem h]
  rfl

lemma pixelTerm_eq (b1 b2 : List ℕ) (j k : ℕ) (hj : j < k)
    (h1 : b1.length = 4 * k) (h2 : b2.length = 4 * k) :
    pixelTerm b1 b2 (4 * j) = some (pixelSq b1 b2 j) := by
  unfold pixelTerm
  rw [getElem?_eq_some_getD b1 (4 * j) (by omega),
    getElem?_eq_some_getD b2 (4 * j) (by omega),
    getElem?_eq_some_getD b1 (4 * j + 1) (by omega),
    getElem?_eq_some_getD b2 (4 * j + 1) (by omega),
    getElem?_eq_some_getD b1 (4 * j + 2) (by omega),
    getElem?_eq_some_getD b2 (4 * j + 2) (by omega)]
  unfold pixelSq byteAt
  ring_nf

lemma sumLoop_Ico (b1 b2 : List ℕ) (k : ℕ)
    (h1 : b1.length = 4 * k) (h2 : b2.length = 4 * k) :
    ∀ d j, k = j + d →
      sumLoop b1 b2 (4 * j) = some (∑ t ∈ Finset.Ico j k, pixelSq b1 b2 t) := by
  intro d
  induction d with
  | zero =>
      intro j hd
      unfold sumLoop
      rw [dif_neg (by omega)]
      have : Finset.Ico j k = ∅ := by
        apply Finset.Ico_eq_empty
        omega
      rw [this, Finset.sum_empty]
  | succ n ih =>
      intro j hd
      unfold sumLoop
      rw [dif_pos (by omega)]
      rw [pixelTerm_eq b1 b2 j k (by omega) h1 h2]
      have h4 : 4 * j + 4 = 4 * (j + 1) := by ring
      rw [h4, ih (j + 1) (by omega)]
      rw [Finset.sum_eq_sum_Ico_succ_bot (by omega : j < k) (pixelSq b1 b2)]

lemma sumLoop_zero_eq (b1 b2 : List ℕ) (k : ℕ)
    (h1 : b1.length = 4 * k) (h2 : b2.length = 4 * k) :
    sumLoop b1 b2 0 = some (sumSqRGB b1 b2 k) := by
  have h := sumLoop_Ico b1 b2 k h1 h2 k 0 (by omega)
  rw [show 4 * 0 = 0 from rfl] at h
  rw [h]
  unfold sumSqRGB
  rw [Finset.range_eq_Ico]

/-- Characterization of `computePSNR` on well-formed RGBA buffers of `k`
pixels: the sentinel `inf` exactly when the accumulated squared error is
zero, otherwise the finite result whose MSE is the sum divided by
`pixelCount * 3`. -/
lemma computePSNR_eq_spec (b1 b2 : List ℕ) (k : ℕ) (hk : 0 < k)
    (h1 : b1.length = 4 * k) (h2 : b2.length = 4 * k) :
    computePSNR b1 b2 =
      if sumSqRGB b1 b2 k = 0 then PSNRResult.inf
      else PSNRResult.val ((sumSqRGB b1 b2 k : ℚ) / ((k : ℚ) * 3)) := by
  have hsum := sumLoop_zero_eq b1 b2 k h1 h2
  unfold computePSNR
  rw [if_neg (by omega), hsum]
  dsimp only
  have hlen0 : ¬ b1.length = 0 := by omega
  rw [if_neg hlen0]
  have hden : ((b1.length : ℚ) / 4 * 3) = (k : ℚ) * 3 := by
    rw [h1]
    push_cast
    ring
  simp only [hden]
  have hk3 : ((k : ℚ) * 3) ≠ 0 := by
    have : (0 : ℚ) < (k : ℚ) := by exact_mod_cast hk
    positivity
  have hiff : ((sumSqRGB b1 b2 k : ℚ) / ((k : ℚ) * 3) = 0) ↔ sumSqRGB b1 b2 k = 0 := by
    rw [div_eq_zero_iff]
    constructor
    · intro h
      rcases h with h | h
      · exact_mod_cast h
      · exact absurd h hk3
    · intro h
      left
      exact_mod_cast h
  by_cases hS : sumSqRGB b1 b2 k = 0
  · rw [if_pos (hiff.mpr hS), if_pos hS]
  · rw [if_neg (fun h => hS (hiff.mp h)), if_neg hS]

lemma getElem?_congr_rgb (a b : List ℕ) (h : agreeRGB a b) (n : ℕ)
    (hn : n % 4 ≠ 3) : a[n]? = b[n]? := by
  by_cases hlt : n < a.length
  · rw [getElem?_eq_some_getD a n hlt, getElem?_eq_some_getD b n (by rw [← h.1]; omega)]
    rw [h.2 n hlt hn]
  · rw [List.getElem?_eq_none (by omega), List.getElem?_eq_none (by rw [← h.1]; omega)]

lemma pixelTerm_congr (b1 b1' b2 b2' : List ℕ)
    (h1 : agreeRGB b1 b1') (h2 : agreeRGB b2 b2') (i : ℕ) (hi : i % 4 = 0) :
    pixelTerm b1 b2 i = pixelTerm b1' b2' i := by
  unfold pixelTerm
  rw [getElem?_congr_rgb b1 b1' h1 i (by omega),
    getElem?_congr_rgb b2 b2' h2 i (by omega),
    getElem?_congr_rgb b1 b1' h1 (i + 1) (by omega),
    getElem?_congr_rgb b2 b2' h2 (i + 1) (by omega),
    getElem?_congr_rgb b1 b1' h1 (i + 2) (by omega),
    getElem?_congr_rgb b2 b2' h2 (i + 2) (by omega)]

lemma sumLoop_congr (b1 b1' b2 b2' : List ℕ)
    (h1 : agreeRGB b1 b1') (h2 : agreeRGB b2 b2') :
    ∀ d i, b1.length ≤ i + d → i % 4 = 0 → sumLoop b1 b2 i = sumLoop b1' b2' i := by
  intro d
  induction d with
  | zero =>
      intro i hle hi
      unfold sumLoop
      rw [dif_neg (by omega), dif_neg (by rw [← h1.1]; omega)]
  | succ n ih =>
      intro i hle hi
      by_cases hlt : i < b1.length
      · unfold sumLoop
        rw [dif_pos hlt, dif_pos (by rw [← h1.1]; omega)]
        rw [pixelTerm_congr b1 b1' b2 b2' h1 h2 i hi,
          ih (i + 4) (by omega) (by omega)]
      · unfold sumLoop
        rw [dif_neg hlt, dif_neg (by rw [← h1.1]; omega)]

/-- `computePSNR` reads only the length-equality of its arguments and the
R/G/B bytes: replacing either buffer by one that agrees with it outside
the alpha bytes leaves the result unchanged. -/
lemma computePSNR_congr (b1 b1' b2 b2' : List ℕ)
    (h1 : agreeRGB b1 b1') (h2 : agreeRGB b2 b2') :
    computePSNR b1 b2 = computePSNR b1' b2' := by
  have hsum : sumLoop b1 b2 0 = sumLoop b1' b2' 0 :=
    sumLoop_congr b1 b1' b2 b2' h1 h2 b1.length 0 (by omega) (by omega)
  unfold computePSNR
  rw [← h1.1, ← h2.1, hsum]

lemma sumSqRGB_nonneg (b1 b2 : List ℕ) (k : ℕ) : 0 ≤ sumSqRGB b1 b2 k := by
  apply Finset.sum_nonneg
  intro j _
  unfold pixelSq
  positivity

lemma byteAt_bounds (l : List ℕ) (hl : ∀ x ∈ l, x ≤ 255) (n : ℕ) :
    0 ≤ byteAt l n ∧ byteAt l n ≤ 255 := by
  unfold byteAt
  refine ⟨Int.natCast_nonneg _, ?_⟩
  by_cases h : n < l.length
  · have hmem : l.getD n 0 ∈ l := by
      rw [List.getD_eq_getElem l 0 h]
      exact List.getElem_mem h
    exact_mod_cast hl _ hmem
  · rw [List.getD_eq_default l 0 (by omega)]
    norm_num

lemma pixelSq_le (b1 b2 : List ℕ)
    (hb1 : ∀ x ∈ b1, x ≤ 255) (hb2 : ∀ x ∈ b2, x ≤ 255) (j : ℕ) :
    pixelSq b1 b2 j ≤ 3 * 65025 := by
  have key : ∀ a b : ℤ, 0 ≤ a → a ≤ 255 → 0 ≤ b → b ≤ 255 →
      (a - b) ^ 2 ≤ 65025 := by
    intro a b ha0 ha b0 hb
    nlinarith
  have k0 := key _ _ (byteAt_bounds b1 hb1 (4 * j)).1 (byteAt_bounds b1 hb1 (4 * j)).2
    (byteAt_bounds b2 hb2 (4 * j)).1 (byteAt_bounds b2 hb2 (4 * j)).2
  have k1 := key _ _ (byteAt_bounds b1 hb1 (4 * j + 1)).1 (byteAt_bounds b1 hb1 (4 * j + 1)).2
    (byteAt_bounds b2 hb2 (4 * j + 1)).1 (byteAt_bounds b2 hb2 (4 * j + 1)).2
  have k2 := key _ _ (byteAt_bounds b1 hb1 (4 * j + 2)).1 (byteAt_bounds b1 hb1 (4 * j + 2)).2
    (byteAt_bounds b2 hb2 (4 * j + 2)).1 (byteAt_bounds b2 hb2 (4 * j + 2)).2
  unfold pixelSq
  linarith

lemma sumSqRGB_le (b1 b2 : List ℕ) (k : ℕ)
    (hb1 : ∀ x ∈ b1, x ≤ 255) (hb2 : ∀ x ∈ b2, x ≤ 255) :
    sumSqRGB b1 b2 k ≤ (k : ℤ) * 3 * 65025 := by
  unfold sumSqRGB
  calc ∑ j ∈ Finset.range k, pixelSq b1 b2 j
      ≤ ∑ _j ∈ Finset.range k, (3 * 65025 : ℤ) :=
        Finset.sum_le_sum (fun j _ => pixelSq_le b1 b2 hb1 hb2 j)
    _ = (k : ℤ) * 3 * 65025 := by
        rw [Finset.sum_const, Finset.card_range]
        push_cast
        ring

/-! ## Claim theorems -/

/-- C1: for raw RGBA buffers of equal positive length `4 * k`,
`computePSNR` accumulates the squared R/G/B differences of each pixel
(stepping 4 bytes per pixel), divides by `pixelCount * 3` to obtain the
MSE, returns the positive-infinity sentinel exactly when the MSE is zero,
and otherwise returns the finite value `10 * log10(255 ^ 2 / MSE)`. -/
theorem c1_psnr_formula (b1 b2 : List ℕ) (k : ℕ) (hk : 0 < k)
    (h1 : b1.length = 4 * k) (h2 : b2.length = 4 * k) :
    (computePSNR b1 b2 =
      if sumSqRGB b1 b2 k = 0 then PSNRResult.inf
      else PSNRResult.val ((sumSqRGB b1 b2 k : ℚ) / ((k : ℚ) * 3))) ∧
    ∀ m : ℚ, psnrDb m = 10 * Real.logb 10 ((255 : ℝ) ^ 2 / (m : ℝ)) := by
  refine ⟨computePSNR_eq_spec b1 b2 k hk h1 h2, fun m => ?_⟩
  unfold psnrDb
  norm_num

/-- Witness for C1 at the single-pixel pair `[0,0,0,255]`, `[10,0,0,255]`. -/
theorem c1_psnr_formula_witness :
    (0 < 1) ∧
    ((computePSNR [0, 0, 0, 255] [10, 0, 0, 255] =
      if sumSqRGB [0, 0, 0, 255] [10, 0, 0, 255] 1 = 0 then PSNRResult.inf
      else PSNRResult.val ((sumSqRGB [0, 0, 0, 255] [10, 0, 0, 255] 1 : ℚ) /
        (((1 : ℕ) : ℚ) * 3))) ∧
    ∀ m : ℚ, psnrDb m = 10 * Real.logb 10 ((255 : ℝ) ^ 2 / (m : ℝ))) :=
  ⟨Nat.one_pos,
    c1_psnr_formula [0, 0, 0, 255] [10, 0, 0, 255] 1 Nat.one_pos rfl rfl⟩

/-- C2: `computePSNR` returns `null` exactly when the two buffers have
different lengths; on equal lengths the result is never `null`. -/
theorem c2_null_iff_length_mismatch (b1 b2 : List ℕ) :
    computePSNR b1 b2 = PSNRResult.null ↔ b1.length ≠ b2.length := by
  constructor
  · intro h
    by_contra hlen
    unfold computePSNR at h
    rw [if_neg (by omega : ¬ b1.length ≠ b2.length)] at h
    rcases hs : sumLoop b1 b2 0 with _ | s
    · rw [hs] at h
      exact PSNRResult.noConfusion h
    · rw [hs] at h
      dsimp only at h
      by_cases h0 : b1.length = 0
      · rw [if_pos h0] at h
        exact PSNRResult.noConfusion h
      · rw [if_neg h0] at h
        split_ifs at h
  · intro h
    unfold computePSNR
    rw [if_pos h]

/-- C3: the alpha channel (every 4th byte) has no influence on the PSNR
result, and buffers identical on R/G/B (of positive length, a multiple of
4) yield the positive-infinity sentinel regardless of their alpha bytes. -/
theorem c3_alpha_has_no_influence :
    (∀ b1 b1' b2 b2' : List ℕ, agreeRGB b1 b1' → agreeRGB b2 b2' →
      computePSNR b1 b2 = computePSNR b1' b2') ∧
    (∀ (b1 b2 : List ℕ) (k : ℕ), 0 < k → b1.length = 4 * k →
      b2.length = 4 * k → agreeRGB b1 b2 →
      computePSNR b1 b2 = PSNRResult.inf) := by
  constructor
  · exact computePSNR_congr
  · intro b1 b2 k hk h1 h2 hagree
    have hS : sumSqRGB b1 b2 k = 0 := by
      apply Finset.sum_eq_zero
      intro j hj
      have hjk : j < k := Finset.mem_range.mp hj
      unfold pixelSq byteAt
      rw [hagree.2 (4 * j) (by omega) (by omega),
        hagree.2 (4 * j + 1) (by omega) (by omega),
        hagree.2 (4 * j + 2) (by omega) (by omega)]
      ring
    rw [computePSNR_eq_spec b1 b2 k hk h1 h2, if_pos hS]

/-- Witness for C3: changing only alpha bytes leaves the result
unchanged, and an RGB-identical pair differing only in alpha scores the
infinity sentinel. -/
theorem c3_alpha_has_no_influence_witness :
    agreeRGB [1, 2, 3, 4] [1, 2, 3, 9] ∧
    agreeRGB [10, 2, 3, 0] [10, 2, 3, 7] ∧
    agreeRGB [5, 6, 7, 8] [5, 6, 7, 99] ∧
    computePSNR [1, 2, 3, 4] [10, 2, 3, 0] =
      computePSNR [1, 2, 3, 9] [10, 2, 3, 7] ∧
    computePSNR [5, 6, 7, 8] [5, 6, 7, 99] = PSNRResult.inf :=
  ⟨by decide, by decide, by decide,
    c3_alpha_has_no_influence.1 _ _ _ _ (by decide) (by decide),
    c3_alpha_has_no_influence.2 [5, 6, 7, 8] [5, 6, 7, 99] 1 Nat.one_pos
      rfl rfl (by decide)⟩

/-- C9: on two empty buffers `computePSNR` passes the equal-length check
and produces the JS `NaN` (`mse = 0 / 0`), which is neither the `null`
incomparability marker nor the infinity sentinel. -/
theorem c9_empty_buffers_nan :
    computePSNR [] [] = PSNRResult.nan ∧
    PSNRResult.nan ≠ PSNRResult.null ∧ PSNRResult.nan ≠ PSNRResult.inf := by
  refine ⟨?_, by decide, by decide⟩
  have h : sumLoop ([] : List ℕ) [] 0 = some 0 := by
    unfold sumLoop
    simp
  simp [computePSNR, h]

/-- C10: on equal-length non-empty byte buffers (entries ≤ 255, length a
multiple of 4) the result is either the infinity sentinel or a finite
value whose decibel number is non-negative. -/
theorem c10_psnr_nonneg (b1 b2 : List ℕ) (k : ℕ) (hk : 0 < k)
    (h1 : b1.length = 4 * k) (h2 : b2.length = 4 * k)
    (hb1 : ∀ x ∈ b1, x ≤ 255) (hb2 : ∀ x ∈ b2, x ≤ 255) :
    computePSNR b1 b2 = PSNRResult.inf ∨
      ∃ m : ℚ, computePSNR b1 b2 = PSNRResult.val m ∧ 0 ≤ psnrDb m := by
  rw [computePSNR_eq_spec b1 b2 k hk h1 h2]
  by_cases hS : sumSqRGB b1 b2 k = 0
  · left
    rw [if_pos hS]
  · right
    refine ⟨(sumSqRGB b1 b2 k : ℚ) / ((k : ℚ) * 3), by rw [if_neg hS], ?_⟩
    have hSpos : 0 < sumSqRGB b1 b2 k :=
      lt_of_le_of_ne (sumSqRGB_nonneg b1 b2 k) (Ne.symm hS)
    have hkpos : (0 : ℚ) < (k : ℚ) := by exact_mod_cast hk
    have hmse_pos : 0 < (sumSqRGB b1 b2 k : ℚ) / ((k : ℚ) * 3) := by
      apply div_pos
      · exact_mod_cast hSpos
      · positivity
    have hmse_le : (sumSqRGB b1 b2 k : ℚ) / ((k : ℚ) * 3) ≤ 65025 := by
      rw [div_le_iff₀ (by positivity)]
      have hb : ((sumSqRGB b1 b2 k : ℚ)) ≤ (k : ℚ) * 3 * 65025 := by
        exact_mod_cast sumSqRGB_le b1 b2 k hb1 hb2
      linarith
    unfold psnrDb
    apply mul_nonneg (by norm_num)
    apply Real.logb_nonneg (by norm_num)
    have hcR : (0 : ℝ) < ((sumSqRGB b1 b2 k : ℚ) / ((k : ℚ) * 3) : ℚ) := by
      exact_mod_cast hmse_pos
    rw [le_div_iff₀ hcR, one_mul]
    have : (((sumSqRGB b1 b2 k : ℚ) / ((k : ℚ) * 3) : ℚ) : ℝ) ≤ 65025 := by
      exact_mod_cast hmse_le
    linarith

/-- Witness for C10 at the single-pixel pair `[0,0,0,255]`,
`[10,0,0,255]`. -/
theorem c10_psnr_nonneg_witness :
    (∀ x ∈ [0, 0, 0, 255], x ≤ 255) ∧ (∀ x ∈ [10, 0, 0, 255], x ≤ 255) ∧
    (computePSNR [0, 0, 0, 255] [10, 0, 0, 255] = PSNRResult.inf ∨
      ∃ m : ℚ, computePSNR [0, 0, 0, 255] [10, 0, 0, 255] = PSNRResult.val m ∧
        0 ≤ psnrDb m) :=
  ⟨by decide, by decide,
    c10_psnr_nonneg [0, 0, 0, 255] [10, 0, 0, 255] 1 Nat.one_pos rfl rfl
      (by decide) (by decide)⟩

/-- C4: `qualityToPercent q` is `round(q * 100)` when `q ≤ 1` and
`round(q)` otherwise (JS `Math.round`, half toward positive infinity);
in particular a literal quality of 1 is treated as 100 percent. -/
theorem c4_quality_normalizer :
    (∀ q : ℚ, qualityToPercent q =
      if q ≤ 1 then ⌊q * 100 + 1 / 2⌋ else ⌊q + 1 / 2⌋) ∧
    qualityToPercent 1 = 100 := by
  constructor
  · intro q
    unfold qualityToPercent jsRound
    rfl
  · unfold qualityToPercent jsRound
    norm_num

/-- C5: an absent, malformed, non-array or empty caller configuration all
resolve to the same fixed 8-entry default plan — JPEG at 0.2/0.5/0.8,
WebP at 0.5/0.8, AVIF at 0.5/0.8, PNG (lossless) at 1.0, in that order.
The parse failure is caught at src/server.js line 114, so `resolveVariants`
is a total function of the parse outcome and malformed input never raises
an error back to the caller. -/
theorem c5_default_plan_fallback :
    resolveVariants ConfigParse.absent = defaultPlan ∧
    resolveVariants ConfigParse.malformed = defaultPlan ∧
    resolveVariants (ConfigParse.parsed ConfigJson.nonArray) = defaultPlan ∧
    resolveVariants (ConfigParse.parsed (ConfigJson.array [])) = defaultPlan ∧
    defaultPlan.length = 8 ∧
    defaultPlan.map (fun v => (v.format, v.quality)) =
      [(some "jpeg", some 0.2), (some "jpeg", some 0.5), (some "jpeg", some 0.8),
       (some "webp", some 0.5), (some "webp", some 0.8),
       (some "avif", some 0.5), (some "avif", some 0.8),
       (some "png", some 1.0)] ∧
    defaultPlan.map (fun v => v.lossType) =
      [some "lossy", some "lossy", some "lossy", some "lossy",
       some "lossy", some "lossy", some "lossy", some "lossless"] :=
  ⟨rfl, rfl, rfl, rfl, rfl, rfl, rfl⟩

/-- C6: a plan entry whose (defaulted, lowercased) format is not one of
jpeg/png/webp/avif produces no record and no error, every other entry is
still processed, and the output keeps plan order: the loop is exactly
filter-then-map over the plan. -/
theorem c6_unknown_format_skipped :
    (∀ plan : List VariantCfg,
      processPlan plan =
        (plan.filter (fun v => supportedFormat (effFormat v))).map mkRecord) ∧
    (∀ (xs ys : List VariantCfg) (c : VariantCfg),
      supportedFormat (effFormat c) = false →
      processPlan (xs ++ c :: ys) = processPlan xs ++ processPlan ys) := by
  have hmap : ∀ plan : List VariantCfg,
      processPlan plan =
        (plan.filter (fun v => supportedFormat (effFormat v))).map mkRecord := by
    intro plan
    induction plan with
    | nil => rfl
    | cons c rest ih =>
        simp only [processPlan]
        by_cases h : supportedFormat (effFormat c)
        · rw [if_pos h, List.filter_cons, if_pos h, List.map_cons, ih]
        · rw [if_neg (by simp [h]), List.filter_cons, if_neg (by simp [h]), ih]
  refine ⟨hmap, ?_⟩
  intro xs ys c hc
  rw [hmap (xs ++ c :: ys), hmap xs, hmap ys]
  rw [List.filter_append, List.map_append, List.filter_cons,
    if_neg (by simp [hc])]

/-- Witness for C6: a bmp entry between two jpeg entries is dropped while
both jpeg entries are still processed. -/
theorem c6_unknown_format_skipped_witness :
    supportedFormat (effFormat cfgBmpHalf) = false ∧
    processPlan [cfgJpegHalf, cfgBmpHalf, cfgJpegHalf] =
      processPlan [cfgJpegHalf] ++ processPlan [cfgJpegHalf] :=
  ⟨by decide,
    c6_unknown_format_skipped.2 [cfgJpegHalf] [cfgJpegHalf] cfgBmpHalf (by decide)⟩

/-- C7: `inferLossType` answers `lossless` exactly for strings whose
ASCII lowercasing is `png`, and `lossy` for every other string, including
unrecognized formats; it is total on arbitrary strings. -/
theorem c7_loss_classifier (s : String) :
    (inferLossType s = "lossless" ↔ asciiLower s = "png") ∧
    (asciiLower s ≠ "png" → inferLossType s = "lossy") ∧
    inferLossType "png" = "lossless" ∧ inferLossType "PNG" = "lossless" ∧
    inferLossType "jpeg" = "lossy" ∧ inferLossType "webp" = "lossy" ∧
    inferLossType "avif" = "lossy" ∧
    inferLossType "totallyUnknown" = "lossy" := by
  refine ⟨?_, ?_, by decide, by decide, by decide, by decide, by decide,
    by decide⟩
  · unfold inferLossType
    split_ifs with h
    · exact ⟨fun _ => h, fun _ => rfl⟩
    · exact ⟨fun hc => absurd hc (by decide), fun hc => absurd hc h⟩
  · intro hne
    unfold inferLossType
    rw [if_neg hne]

/-- Witness for C7: a string that does not lowercase to `png` is
classified `lossy`. -/
theorem c7_loss_classifier_witness :
    asciiLower "JPEG" ≠ "png" ∧ inferLossType "JPEG" = "lossy" :=
  ⟨by decide, (c7_loss_classifier "JPEG").2.1 (by decide)⟩

/-- C8: the spec's pinned normalizer values hold:
`normalize(0.8) = 80`, `normalize(1) = 100`, `normalize(50) = 50`, and
`normalize(0.205) = 21` (0.205 · 100 = 20.5 rounds up to 21; the binary64
product `0.205 * 100` is exactly 20.5, so the rational model agrees with
the JS runtime here). -/
theorem c8_pinned_values :
    qualityToPercent 0.8 = 80 ∧ qualityToPercent 1 = 100 ∧
    qualityToPercent 50 = 50 ∧ qualityToPercent 0.205 = 21 := by
  refine ⟨?_, ?_, ?_, ?_⟩ <;>
    · unfold qualityToPercent jsRound
      norm_num

end ImageCompressor
